import Mathlib

/-!
Verification of the redirect-policy and long-running-operation poller core of
the azure-sdk-for-python repository, as described in its specification.

The redirect loop is embedded from
`sdk/core/azure-core/azure/core/pipeline/policies/_redirect_async.py`
(`AsyncRedirectPolicy.send`).  The helpers that `send` calls
(`configure_redirects`, `get_redirect_location`, `increment`, `get_domain`,
`domain_changed`, from `_redirect.py` and `_utils.py`) are not part of the
available sources and are modelled from the specification, as marked on each
definition.

The long-running-operation part is embedded from
`sdk/keyvault/azure-keyvault-keys/azure/keyvault/keys/_client.py` and
`sdk/keyvault/azure-keyvault-secrets/azure/keyvault/secrets/aio/_client.py`;
the polling-method internals (`DeleteRecoverPollingMethod`,
`KeyVaultOperationPoller`, from `_shared/_polling.py`) are likewise modelled
from the specification.

The transport (`self.next.send`) is modelled as an oracle: a list of response
shapes (status code and headers), one consumed per hop; the response delivered
at a hop attaches the request that was sent, mirroring the pipeline's
back-reference `response.http_request`.
-/

/-- An HTTP request: method, URL, headers and body (spec section 3).
URLs are plain strings such as "http://a.example/x". -/
structure HttpRequest where
  method : String
  url : String
  headers : List (String × String)
  body : Option String
deriving Repr, DecidableEq

/-- The part of a response produced by the transport oracle: status code and
headers.  The full response additionally back-references the request. -/
structure RespData where
  status_code : Nat
  headers : List (String × String)
deriving Repr, DecidableEq

/-- An HTTP response: status code, headers, and the back-reference to the
request that produced it (spec section 3). -/
structure HttpResponse where
  status_code : Nat
  headers : List (String × String)
  http_request : HttpRequest
deriving Repr, DecidableEq

/-- Project a response back to its transport-produced part. -/
def HttpResponse.data (r : HttpResponse) : RespData :=
  ⟨r.status_code, r.headers⟩

/-- The transport producing a response: it attaches the request it was given
as the response's back-reference. -/
def mkResponse (d : RespData) (req : HttpRequest) : HttpResponse :=
  ⟨d.status_code, d.headers, req⟩

/-- The per-call context option bag read and written by the redirect policy:
`permit_redirects`, `redirect_max` (read at call setup; `none` means the
option was not supplied) and the `insecure_domain_change` flag written on a
cross-domain hop. -/
structure RequestOptions where
  permit_redirects : Option Bool := none
  redirect_max : Option Nat := none
  insecure_domain_change : Option Bool := none
deriving Repr, DecidableEq

/-- A `PipelineRequest`: the HTTP request in flight together with its
context options (`request.context.options`). -/
structure PipelineRequest where
  http_request : HttpRequest
  options : RequestOptions
deriving Repr, DecidableEq

/-- Case-insensitive lowercase of a character, avoiding `Char.ofNat`'s
validity side conditions by enumerating nothing: ASCII letters only. -/
def lowerChar (c : Char) : Char :=
  if c.toNat ≥ 65 ∧ c.toNat ≤ 90 then Char.ofNat (c.toNat + 32) else c

/-- Lowercase a header name (headers are case-insensitive, spec section 3). -/
def lowerString (s : String) : String :=
  ⟨s.data.map lowerChar⟩

/-- Case-insensitive header lookup. -/
def header_value (headers : List (String × String)) (name : String) : Option String :=
  (headers.find? (fun h => lowerString h.1 == lowerString name)).map (·.2)

/-- Modelled from the spec: `get_domain` (in `_utils.py`, not among the
available sources) computes the derived Domain value, "scheme + host" of a
URL (spec sections 3 and glossary).  Everything up to the first slash after
the "://" separator. -/
def domainChars : List Char → List Char
  | [] => []
  | ':' :: '/' :: '/' :: rest => ':' :: '/' :: '/' :: rest.takeWhile (· ≠ '/')
  | c :: cs => c :: domainChars cs

/-- Modelled from the spec: scheme+host of a URL string. -/
def get_domain (url : String) : String :=
  ⟨domainChars url.data⟩

/-- Modelled from the spec: `domain_changed` (in `_redirect.py`, not among
the available sources) compares a captured original domain with the domain of
a URL; with no captured domain nothing counts as changed. -/
def domain_changed (original_domain : Option String) (url : String) : Bool :=
  match original_domain with
  | none => false
  | some d => get_domain url != d

/-- The conventional 3xx redirect status set (spec section 6: "the
conventional 3xx redirect set"). -/
def REDIRECT_STATUSES : List Nat := [300, 301, 302, 303, 307, 308]

/-- The redirect policy's construction-time configuration.  Defaults are
those documented on `AsyncRedirectPolicy`: `permit_redirects` defaults to
true, `redirect_max` defaults to 30. -/
structure AsyncRedirectPolicy where
  allow : Bool := true
  max_redirects : Nat := 30
deriving Repr, DecidableEq

/-- The per-call redirect settings derived at call setup (spec section 3,
`RedirectSettings`): `allow`, `max_redirects`, and the hop `history`. -/
structure RedirectSettings where
  allow : Bool
  max_redirects : Nat
  history : List HttpResponse
deriving Repr, DecidableEq

/-- Modelled from the spec: `configure_redirects` (in `_redirect.py`, not
among the available sources) reads `allow` and `max_redirects` from the call
options, falling back to the policy's configured values, and starts with an
empty history (spec section 4.2, per-call setup). -/
def AsyncRedirectPolicy.configure_redirects (p : AsyncRedirectPolicy)
    (options : RequestOptions) : RedirectSettings :=
  { allow := options.permit_redirects.getD p.allow
    max_redirects := options.redirect_max.getD p.max_redirects
    history := [] }

/-- Modelled from the spec: `get_redirect_location` (in `_redirect.py`, not
among the available sources).  Spec section 6: a response is
redirect-eligible when its status is in the conventional 3xx redirect set AND
it carries a location header; absence of either means "not a redirect". -/
def get_redirect_location (response : HttpResponse) : Option String :=
  if response.status_code ∈ REDIRECT_STATUSES then
    header_value response.headers "location"
  else
    none

/-- Modelled from the spec: the redirected request of section 4.2 step 4 —
a new request pointing at the redirect location, method-preserving for
307/308-style statuses, GET-with-body-dropped for the 303-style class. -/
def redirect_request (req : HttpRequest) (status : Nat) (loc : String) : HttpRequest :=
  if status == 307 ∨ status == 308 then
    { req with url := loc }
  else
    { method := "GET", url := loc, headers := req.headers, body := none }

/-- Modelled from the spec: `increment` (in `_redirect.py`, not among the
available sources).  Spec section 4.2 step 4: append the response to
`history`; if `len(history) >= max_redirects` the call transitions to
EXCEEDED (the returned Bool is "redirects remaining"); otherwise construct
the new request pointing at the redirect location.  The new request is
produced here (in the source it is installed into `response.http_request`,
which the loop then copies into `request.http_request`). -/
def increment (settings : RedirectSettings) (response : HttpResponse)
    (redirect_location : String) : RedirectSettings × Bool × HttpRequest :=
  let settings' := { settings with history := settings.history ++ [response] }
  ( settings'
  , decide (settings'.history.length < settings.max_redirects)
  , redirect_request response.http_request response.status_code redirect_location )

/-- Outcome of a `send` call: the delivered response (with the final request
state and the final redirect settings, exposed so the history at delivery is
observable), the too-many-redirects error carrying the hop history, or the
marker that the transport oracle had no response for a hop (the modelled runs
never reach it when the oracle is long enough). -/
inductive SendResult where
  | delivered (response : HttpResponse) (request : PipelineRequest)
      (settings : RedirectSettings)
  | tooManyRedirects (history : List HttpResponse) (request : PipelineRequest)
  | outOfResponses (request : PipelineRequest)
deriving Repr, DecidableEq

/-- The redirect loop of `AsyncRedirectPolicy.send` (lines 75-90 of
`_redirect_async.py`), one recursive step per `while` iteration, consuming one
oracle response per hop:
forward the request; if the response has a redirect location and `allow` is
set, run `increment`, install the redirected request, set the
`insecure_domain_change` option when the new URL's domain differs from the
original domain, and continue while redirects remain, raising
`TooManyRedirectsError(history)` when they do not; otherwise return the
response. -/
def sendAux (settings : RedirectSettings) (original_domain : Option String)
    (request : PipelineRequest) : List RespData → SendResult
  | [] => .outOfResponses request
  | d :: rest =>
    let response := mkResponse d request.http_request
    match get_redirect_location response with
    | some loc =>
      if settings.allow then
        let inc := increment settings response loc
        let request' : PipelineRequest := { request with http_request := inc.2.2 }
        let request'' : PipelineRequest :=
          if domain_changed original_domain request'.http_request.url then
            { request' with
              options := { request'.options with insecure_domain_change := some true } }
          else request'
        if inc.2.1 then
          sendAux inc.1 original_domain request'' rest
        else
          .tooManyRedirects inc.1.history request''
      else .delivered response request settings
    | none => .delivered response request settings

/-- The original-domain capture of `send` (line 74 of `_redirect_async.py`):
the domain of the request URL when redirects are allowed, otherwise unset. -/
def AsyncRedirectPolicy.original_domain_of (p : AsyncRedirectPolicy)
    (request : PipelineRequest) : Option String :=
  if (p.configure_redirects request.options).allow then
    some (get_domain request.http_request.url)
  else
    none

/-- `AsyncRedirectPolicy.send` (lines 72-90 of `_redirect_async.py`):
configure the per-call settings, capture the original domain, and run the
redirect loop against the transport oracle. -/
def AsyncRedirectPolicy.send (p : AsyncRedirectPolicy) (request : PipelineRequest)
    (nexts : List RespData) : SendResult :=
  sendAux (p.configure_redirects request.options)
    (p.original_domain_of request) request nexts

/-- The transport-produced part of the delivered response, when delivered. -/
def SendResult.deliveredData : SendResult → Option RespData
  | .delivered resp _ _ => some resp.data
  | _ => none

/-- The hop history (transport-produced parts) at the end of the call:
the settings' history for a delivery, the error's history for a
too-many-redirects failure. -/
def SendResult.historyData : SendResult → Option (List RespData)
  | .delivered _ _ st => some (st.history.map HttpResponse.data)
  | .tooManyRedirects h _ => some (h.map HttpResponse.data)
  | .outOfResponses _ => none

/-- Whether the call failed with the too-many-redirects error. -/
def SendResult.isTooMany : SendResult → Bool
  | .tooManyRedirects _ _ => true
  | _ => false

/-- The request state (with its context options) at the end of the call. -/
def SendResult.finalRequest : SendResult → PipelineRequest
  | .delivered _ req _ => req
  | .tooManyRedirects _ req => req
  | .outOfResponses req => req

/-- Redirect-eligibility as a predicate on the transport-produced part: the
status is in the conventional 3xx set and a location header is present.
Eligibility does not depend on the attached request. -/
def isRedirect (d : RespData) : Bool :=
  decide (d.status_code ∈ REDIRECT_STATUSES) && (header_value d.headers "location").isSome

/-- The location header of a transport-produced response part. -/
def locationOf (d : RespData) : String :=
  (header_value d.headers "location").getD ""

/-!
Long-running-operation poller.  The client methods below are embedded from
`azure-keyvault-keys/azure/keyvault/keys/_client.py` and
`azure-keyvault-secrets/azure/keyvault/secrets/aio/_client.py`; each
receives the service response bundle that `self._client` produced and the
`_polling_interval` keyword (`none` when absent or passed as None).  The
status-check callable is modelled as an oracle: a list of poll responses
consumed one per status-check invocation.
-/

/-- A deleted-key bundle as returned by the service; `recovery_id` is absent
exactly when soft-delete is disabled on the vault. -/
structure DeletedKeyBundle where
  recovery_id : Option String
  key_id : String
deriving Repr, DecidableEq

/-- The `DeletedKey` model built from a deleted-key bundle. -/
structure DeletedKey where
  recovery_id : Option String
  key_id : String
deriving Repr, DecidableEq

/-- `DeletedKey._from_deleted_key_bundle`: carries the bundle's fields over. -/
def DeletedKey.from_deleted_key_bundle (b : DeletedKeyBundle) : DeletedKey :=
  ⟨b.recovery_id, b.key_id⟩

/-- A recovered key as built from a key bundle. -/
structure KeyVaultKey where
  key_id : String
deriving Repr, DecidableEq

/-- A deleted-secret bundle as returned by the service. -/
structure DeletedSecretBundle where
  recovery_id : Option String
  name : String
deriving Repr, DecidableEq

/-- The `DeletedSecret` model built from a deleted-secret bundle. -/
structure DeletedSecret where
  recovery_id : Option String
  name : String
deriving Repr, DecidableEq

/-- `DeletedSecret._from_deleted_secret_bundle`: carries the fields over. -/
def DeletedSecret.from_deleted_secret_bundle (b : DeletedSecretBundle) : DeletedSecret :=
  ⟨b.recovery_id, b.name⟩

/-- A recovered secret's properties. -/
structure SecretProperties where
  name : String
deriving Repr, DecidableEq

/-- One response of the status-check callable: the operation is still in
progress, the operation is finished, or the check itself raised an error
(e.g. resource not found). -/
inductive PollResponse where
  | inProgress
  | done
  | failure (message : String)
deriving Repr, DecidableEq

/-- Outcome of driving a polling method to its end: completed after a number
of status-check invocations, failed with the surfaced error after a number of
invocations, or the scripted oracle ran out before a terminal response. -/
inductive RunOutcome where
  | completed (checks : Nat)
  | failed (message : String) (checks : Nat)
  | exhausted
deriving Repr, DecidableEq

/-- Modelled from the spec: `DeleteRecoverPollingMethod` and its async
variant `AsyncDeleteRecoverPollingMethod` (in `_shared/_polling.py` and
`_shared/_polling_async.py`, not among the available sources).  Construction
inputs per spec section 4.3: an initial `finished` flag, the eventual final
resource, and the poll interval.  The status-check callable and the initial
response are supplied at run time by the oracle. -/
structure DeleteRecoverPollingMethod (α : Type) where
  finished : Bool
  final_resource : α
  interval : Nat
deriving Repr, DecidableEq

/-- Modelled from the spec: the polling loop body — invoke the status-check
callable repeatedly; a well-formed still-in-progress response prolongs
polling, a finished response terminates, and an erroring status check is
surfaced verbatim without further polling (spec sections 4.3 and 7).
The accumulator counts status-check invocations made so far. -/
def pollUntilDone : List PollResponse → Nat → RunOutcome
  | [], _ => .exhausted
  | p :: rest, checks =>
    match p with
    | .inProgress => pollUntilDone rest (checks + 1)
    | .done => .completed (checks + 1)
    | .failure message => .failed message (checks + 1)

/-- Modelled from the spec: running the polling method to a terminal state
(`run`/`wait`): a poller that is already finished at creation is terminal and
never invokes the status-check callable; otherwise poll until terminal. -/
def DeleteRecoverPollingMethod.run {α : Type} (m : DeleteRecoverPollingMethod α)
    (polls : List PollResponse) : RunOutcome :=
  if m.finished then .completed 0 else pollUntilDone polls 0

/-- Outcome of `result()`: the final resource with the number of status-check
invocations made, a surfaced status-check error, or oracle exhaustion. -/
inductive ResultOutcome (α : Type) where
  | ok (resource : α) (checks : Nat)
  | failed (message : String) (checks : Nat)
  | exhausted
deriving Repr, DecidableEq

/-- Modelled from the spec: `KeyVaultOperationPoller` wraps a polling
method; its blocking `result()` drives the method to a terminal state and
then returns the final resource (spec section 4.3). -/
structure KeyVaultOperationPoller (α : Type) where
  polling_method : DeleteRecoverPollingMethod α
deriving Repr, DecidableEq

/-- Modelled from the spec: `result()` — wait for the terminal state, then
return the final resource; a status-check error is surfaced verbatim. -/
def KeyVaultOperationPoller.result {α : Type} (p : KeyVaultOperationPoller α)
    (polls : List PollResponse) : ResultOutcome α :=
  match p.polling_method.run polls with
  | .completed checks => .ok p.polling_method.final_resource checks
  | .failed message checks => .failed message checks
  | .exhausted => .exhausted

/-- The `_polling_interval` resolution shared by all four client operations:
`kwargs.pop("_polling_interval", None)` followed by `if polling_interval is
None: polling_interval = 2`. -/
def resolvePollingInterval (polling_interval : Option Nat) : Nat :=
  match polling_interval with
  | none => 2
  | some v => v

/-- `KeyClient.begin_delete_key` (`_client.py` lines 428-447): resolve the
polling interval, build the `DeletedKey`, and construct the polling method
with `finished` true exactly when the deleted key has no recovery id (no
recovery id means soft-delete is disabled). -/
def KeyClient.begin_delete_key (deleted_key_bundle : DeletedKeyBundle)
    (polling_interval : Option Nat) : KeyVaultOperationPoller DeletedKey :=
  let deleted_key := DeletedKey.from_deleted_key_bundle deleted_key_bundle
  { polling_method :=
      { finished := deleted_key.recovery_id.isNone
        final_resource := deleted_key
        interval := resolvePollingInterval polling_interval } }

/-- `KeyClient.begin_recover_deleted_key` (`_client.py` lines 629-645):
resolve the polling interval and construct the polling method with
`finished := false`. -/
def KeyClient.begin_recover_deleted_key (recovered_key : KeyVaultKey)
    (polling_interval : Option Nat) : KeyVaultOperationPoller KeyVaultKey :=
  { polling_method :=
      { finished := false
        final_resource := recovered_key
        interval := resolvePollingInterval polling_interval } }

/-- The polling method constructed by `SecretClient.delete_secret`
(async `_client.py` lines 308-327): `finished` true exactly when the deleted
secret has no recovery id. -/
def SecretClient.delete_secret_polling_method (bundle : DeletedSecretBundle)
    (polling_interval : Option Nat) : DeleteRecoverPollingMethod DeletedSecret :=
  let deleted_secret := DeletedSecret.from_deleted_secret_bundle bundle
  { finished := deleted_secret.recovery_id.isNone
    final_resource := deleted_secret
    interval := resolvePollingInterval polling_interval }

/-- `SecretClient.delete_secret` (async `_client.py` lines 287-330): build
the polling method, await its run, and return its resource. -/
def SecretClient.delete_secret (bundle : DeletedSecretBundle)
    (polling_interval : Option Nat) (polls : List PollResponse) :
    ResultOutcome DeletedSecret :=
  match (SecretClient.delete_secret_polling_method bundle polling_interval).run polls with
  | .completed checks =>
      .ok (SecretClient.delete_secret_polling_method bundle polling_interval).final_resource
        checks
  | .failed message checks => .failed message checks
  | .exhausted => .exhausted

/-- The polling method constructed by `SecretClient.recover_deleted_secret`
(async `_client.py` lines 427-445): `finished := false`. -/
def SecretClient.recover_deleted_secret_polling_method
    (recovered_secret : SecretProperties) (polling_interval : Option Nat) :
    DeleteRecoverPollingMethod SecretProperties :=
  { finished := false
    final_resource := recovered_secret
    interval := resolvePollingInterval polling_interval }

/-!
Unfolding lemmas for the redirect loop.
-/

/-- The request installed by a followed hop: the redirected request, with the
insecure-domain-change option set when the hop's target domain differs. -/
def nextRequest (origd : Option String) (request : PipelineRequest) (d : RespData) :
    PipelineRequest :=
  if domain_changed origd (redirect_request request.http_request d.status_code (locationOf d)).url then
    { http_request := redirect_request request.http_request d.status_code (locationOf d)
      options := { request.options with insecure_domain_change := some true } }
  else
    { request with http_request := redirect_request request.http_request d.status_code (locationOf d) }

theorem data_mkResponse (d : RespData) (q : HttpRequest) :
    (mkResponse d q).data = d := rfl

theorem get_redirect_location_of_not_redirect {d : RespData} (q : HttpRequest)
    (h : isRedirect d = false) : get_redirect_location (mkResponse d q) = none := by
  unfold get_redirect_location mkResponse
  by_cases hs : d.status_code ∈ REDIRECT_STATUSES
  · cases hl : header_value d.headers "location" with
    | none => simp [hs, hl]
    | some l =>
      exfalso
      simp [isRedirect, hs, hl] at h
  · simp [hs]

theorem get_redirect_location_of_redirect {d : RespData} (q : HttpRequest)
    (h : isRedirect d = true) :
    get_redirect_location (mkResponse d q) = some (locationOf d) := by
  simp only [isRedirect, Bool.and_eq_true, decide_eq_true_eq] at h
  obtain ⟨h1, h2⟩ := h
  obtain ⟨l, hl⟩ := Option.isSome_iff_exists.mp h2
  simp [get_redirect_location, mkResponse, locationOf, h1, hl]

theorem redirect_request_url (req : HttpRequest) (status : Nat) (loc : String) :
    (redirect_request req status loc).url = loc := by
  unfold redirect_request
  split <;> rfl

theorem nextRequest_url (origd : Option String) (request : PipelineRequest) (d : RespData) :
    (nextRequest origd request d).http_request.url = locationOf d := by
  unfold nextRequest
  split <;> simp [redirect_request_url]

theorem nextRequest_flag (origd : Option String) (request : PipelineRequest) (d : RespData) :
    (nextRequest origd request d).options.insecure_domain_change =
      (if domain_changed origd (locationOf d) then some true
       else request.options.insecure_domain_change) := by
  unfold nextRequest
  rw [redirect_request_url]
  split <;> simp_all

/-- One loop iteration on a non-redirect response: delivered as-is. -/
theorem sendAux_cons_not_redirect (settings : RedirectSettings) (origd : Option String)
    (request : PipelineRequest) {d : RespData} (rest : List RespData)
    (hd : isRedirect d = false) :
    sendAux settings origd request (d :: rest) =
      .delivered (mkResponse d request.http_request) request settings := by
  simp only [sendAux]
  rw [get_redirect_location_of_not_redirect request.http_request hd]

/-- One loop iteration with redirects disallowed: delivered as-is. -/
theorem sendAux_cons_not_allowed (settings : RedirectSettings) (origd : Option String)
    (request : PipelineRequest) (d : RespData) (rest : List RespData)
    (hallow : settings.allow = false) :
    sendAux settings origd request (d :: rest) =
      .delivered (mkResponse d request.http_request) request settings := by
  simp only [sendAux]
  cases h : get_redirect_location (mkResponse d request.http_request) with
  | none => rfl
  | some loc => simp [hallow]

/-- One loop iteration on a followed redirect: append to history, install the
redirected request (flagging a domain change), and continue while the history
stays below the maximum, otherwise fail. -/
theorem sendAux_cons_redirect (settings : RedirectSettings) (origd : Option String)
    (request : PipelineRequest) {d : RespData} (rest : List RespData)
    (hd : isRedirect d = true) (hallow : settings.allow = true) :
    sendAux settings origd request (d :: rest) =
      if settings.history.length + 1 < settings.max_redirects then
        sendAux { settings with history := settings.history ++ [mkResponse d request.http_request] }
          origd (nextRequest origd request d) rest
      else
        .tooManyRedirects (settings.history ++ [mkResponse d request.http_request])
          (nextRequest origd request d) := by
  have hloc := get_redirect_location_of_redirect request.http_request hd
  by_cases hcond : settings.history.length + 1 < settings.max_redirects
  · simp only [sendAux]
    rw [hloc]
    simp [hallow, increment, nextRequest, redirect_request, mkResponse, hcond]
  · simp only [sendAux]
    rw [hloc]
    simp [hallow, increment, nextRequest, redirect_request, mkResponse, hcond]

/-!
Chain lemmas: behaviour of the loop on a chain of followed redirects.
-/

/-- Following a chain: with `pre` all redirect-eligible and a terminal
non-redirect `d`, while the history budget allows all of `pre`, the loop
delivers `d`'s response, with history extended by exactly `pre` and the
insecure-domain-change option set exactly when some hop of `pre` targets a
changed domain. -/
theorem sendAux_chain_deliver (origd : Option String) :
    ∀ (pre : List RespData) (settings : RedirectSettings) (request : PipelineRequest)
      (d : RespData) (rest : List RespData),
      settings.allow = true →
      (∀ r ∈ pre, isRedirect r = true) →
      isRedirect d = false →
      settings.history.length + pre.length < settings.max_redirects →
      ∃ (resp : HttpResponse) (req' : PipelineRequest) (st' : RedirectSettings),
        sendAux settings origd request (pre ++ d :: rest) = .delivered resp req' st' ∧
        resp.data = d ∧
        st'.history.map HttpResponse.data = settings.history.map HttpResponse.data ++ pre ∧
        st'.max_redirects = settings.max_redirects ∧
        req'.options.insecure_domain_change =
          (if pre.any (fun r => domain_changed origd (locationOf r)) then some true
           else request.options.insecure_domain_change)
  | [], settings, request, d, rest, hallow, _, hd, _ => by
      refine ⟨mkResponse d request.http_request, request, settings, ?_, rfl, by simp, rfl, by simp⟩
      simpa using sendAux_cons_not_redirect settings origd request rest hd
  | r :: pre', settings, request, d, rest, hallow, hpre, hd, hlen => by
      have hr : isRedirect r = true := hpre r (List.mem_cons_self r pre')
      have hstep := sendAux_cons_redirect settings origd request (pre' ++ d :: rest) hr hallow
      have hcond : settings.history.length + 1 < settings.max_redirects := by
        simp only [List.length_cons] at hlen
        omega
      rw [if_pos hcond] at hstep
      have hlen' :
          ({ settings with history := settings.history ++ [mkResponse r request.http_request] } :
              RedirectSettings).history.length + pre'.length < settings.max_redirects := by
        simp only [List.length_append, List.length_cons, List.length_nil]
        simp only [List.length_cons] at hlen
        omega
      obtain ⟨resp, req', st', heq, hdata, hhist, hmax, hflag⟩ :=
        sendAux_chain_deliver origd pre'
          { settings with history := settings.history ++ [mkResponse r request.http_request] }
          (nextRequest origd request r) d rest hallow
          (fun q hq => hpre q (List.mem_cons_of_mem r hq)) hd hlen'
      refine ⟨resp, req', st', ?_, hdata, ?_, hmax, ?_⟩
      · rw [List.cons_append, hstep, heq]
      · rw [hhist]
        simp [data_mkResponse]
      · rw [hflag, nextRequest_flag]
        by_cases h1 : pre'.any (fun q => domain_changed origd (locationOf q)) = true
        · simp [h1, List.any_cons]
        · simp only [Bool.not_eq_true] at h1
          by_cases h2 : domain_changed origd (locationOf r) = true
          · simp [h1, h2, List.any_cons]
          · simp only [Bool.not_eq_true] at h2
            simp [h1, h2, List.any_cons]

/-- Exceeding the budget: with `pre` all redirect-eligible, nonempty, and
exactly filling the remaining history budget, the loop fails with the
too-many-redirects error whose history is extended by exactly `pre`. -/
theorem sendAux_chain_exceed (origd : Option String) :
    ∀ (pre : List RespData) (settings : RedirectSettings) (request : PipelineRequest)
      (rest : List RespData),
      settings.allow = true →
      (∀ r ∈ pre, isRedirect r = true) →
      pre ≠ [] →
      settings.history.length + pre.length = settings.max_redirects →
      ∃ (h : List HttpResponse) (req' : PipelineRequest),
        sendAux settings origd request (pre ++ rest) = .tooManyRedirects h req' ∧
        h.map HttpResponse.data = settings.history.map HttpResponse.data ++ pre
  | [], _, _, _, _, _, hne, _ => absurd rfl hne
  | r :: pre', settings, request, rest, hallow, hpre, _, hlen => by
      have hr : isRedirect r = true := hpre r (List.mem_cons_self r pre')
      have hstep := sendAux_cons_redirect settings origd request (pre' ++ rest) hr hallow
      by_cases hpre0 : pre' = []
      · subst hpre0
        have hcond : ¬ settings.history.length + 1 < settings.max_redirects := by
          simp only [List.length_cons, List.length_nil] at hlen
          omega
        rw [if_neg hcond] at hstep
        refine ⟨settings.history ++ [mkResponse r request.http_request],
          nextRequest origd request r, ?_, ?_⟩
        · simpa using hstep
        · simp [data_mkResponse]
      · have hne' : pre' ≠ [] := hpre0
        have hcond : settings.history.length + 1 < settings.max_redirects := by
          simp only [List.length_cons] at hlen
          have : 0 < pre'.length := List.length_pos.mpr hpre0
          omega
        rw [if_pos hcond] at hstep
        have hlen' :
            ({ settings with history := settings.history ++ [mkResponse r request.http_request] } :
                RedirectSettings).history.length + pre'.length = settings.max_redirects := by
          simp only [List.length_append, List.length_cons, List.length_nil]
          simp only [List.length_cons] at hlen
          omega
        obtain ⟨h, req', heq, hhist⟩ :=
          sendAux_chain_exceed origd pre'
            { settings with history := settings.history ++ [mkResponse r request.http_request] }
            (nextRequest origd request r) rest hallow
            (fun q hq => hpre q (List.mem_cons_of_mem r hq)) hne' hlen'
        refine ⟨h, req', ?_, ?_⟩
        · rw [List.cons_append, hstep, heq]
        · rw [hhist]
          simp [data_mkResponse]

/-- The insecure-domain-change option is monotone: once it reads `some true`
in the loop state, every later loop state, including the final one of any
outcome, still reads `some true`. -/
theorem sendAux_flag_monotone (origd : Option String) :
    ∀ (nexts : List RespData) (settings : RedirectSettings) (request : PipelineRequest),
      request.options.insecure_domain_change = some true →
      ((sendAux settings origd request nexts).finalRequest).options.insecure_domain_change =
        some true
  | [], settings, request, hflag => hflag
  | d :: rest, settings, request, hflag => by
      by_cases hd : isRedirect d = true
      · by_cases hallow : settings.allow = true
        · rw [sendAux_cons_redirect settings origd request rest hd hallow]
          have hflag' :
              (nextRequest origd request d).options.insecure_domain_change = some true := by
            rw [nextRequest_flag]
            split <;> simp [hflag]
          split
          · exact sendAux_flag_monotone origd rest _ (nextRequest origd request d) hflag'
          · simpa [SendResult.finalRequest] using hflag'
        · rw [sendAux_cons_not_allowed settings origd request d rest (by simpa using hallow)]
          simpa [SendResult.finalRequest] using hflag
      · rw [sendAux_cons_not_redirect settings origd request rest (by simpa using hd)]
        simpa [SendResult.finalRequest] using hflag

/-- The loop never shrinks the history: a delivered outcome's settings carry
a history at least as long as the starting one. -/
theorem sendAux_delivered_history_ge (origd : Option String) :
    ∀ (nexts : List RespData) (settings : RedirectSettings) (request : PipelineRequest)
      (resp : HttpResponse) (req' : PipelineRequest) (st' : RedirectSettings),
      sendAux settings origd request nexts = .delivered resp req' st' →
      settings.history.length ≤ st'.history.length
  | [], settings, request, resp, req', st', h => by
      simp [sendAux] at h
  | d :: rest, settings, request, resp, req', st', h => by
      by_cases hd : isRedirect d = true
      · by_cases hallow : settings.allow = true
        · rw [sendAux_cons_redirect settings origd request rest hd hallow] at h
          by_cases hcond : settings.history.length + 1 < settings.max_redirects
          · rw [if_pos hcond] at h
            have := sendAux_delivered_history_ge origd rest _ (nextRequest origd request d)
              resp req' st' h
            simp only [List.length_append, List.length_cons, List.length_nil] at this
            omega
          · rw [if_neg hcond] at h
            exact absurd h (by simp)
        · rw [sendAux_cons_not_allowed settings origd request d rest
            (by simpa using hallow)] at h
          cases h
          exact Nat.le_refl _
      · rw [sendAux_cons_not_redirect settings origd request rest (by simpa using hd)] at h
        cases h
        exact Nat.le_refl _

/-- The polling loop stops at the first non-in-progress response: a prefix of
in-progress responses followed by an erroring status check surfaces that
error after exactly `pre.length + 1` invocations, whatever follows. -/
theorem pollUntilDone_failure :
    ∀ (pre : List PollResponse) (message : String) (rest : List PollResponse) (checks : Nat),
      (∀ q ∈ pre, q = PollResponse.inProgress) →
      pollUntilDone (pre ++ PollResponse.failure message :: rest) checks =
        .failed message (checks + pre.length + 1)
  | [], message, rest, checks, _ => by simp [pollUntilDone]
  | q :: pre', message, rest, checks, hpre => by
      have hq : q = PollResponse.inProgress := hpre q (List.mem_cons_self q pre')
      subst hq
      rw [List.cons_append]
      show pollUntilDone (pre' ++ PollResponse.failure message :: rest) (checks + 1) = _
      rw [pollUntilDone_failure pre' message rest (checks + 1)
        (fun x hx => hpre x (List.mem_cons_of_mem _ hx))]
      simp only [List.length_cons]
      congr 1
      omega

/-!
Concrete scenario inputs used by witnesses and counterexamples (the
specification's section 8 scenario: `http://a.example/x`, a same-domain 302,
a cross-domain 302, then 200).
-/

/-- The original request of the witness scenarios. -/
def witnessHttpRequest : HttpRequest :=
  { method := "GET", url := "http://a.example/x", headers := [], body := none }

/-- The witness pipeline request with no options supplied. -/
def witnessRequest : PipelineRequest :=
  { http_request := witnessHttpRequest, options := {} }

/-- A 302 redirect staying on the original domain. -/
def resp302SameDomain : RespData := ⟨302, [("location", "http://a.example/y")]⟩

/-- A 302 redirect leaving the original domain. -/
def resp302CrossDomain : RespData := ⟨302, [("location", "http://b.example/z")]⟩

/-- A terminal 200 response. -/
def resp200 : RespData := ⟨200, []⟩

/-- The witness request configured with `redirect_max = 1`. -/
def witnessRequestMaxOne : PipelineRequest :=
  { http_request := witnessHttpRequest, options := { redirect_max := some 1 } }

/-- The counterexample request configured with `redirect_max = 0`. -/
def counterRequestMaxZero : PipelineRequest :=
  { http_request := witnessHttpRequest, options := { redirect_max := some 0 } }

/-- Claim C1 (amended: requires `max_redirects ≥ 1`): for every redirect
chain longer than the configured maximum — the first `max_redirects` oracle
responses are all valid redirects with a location — `AsyncRedirectPolicy.send`
fails with the too-many-redirects error, and the history it carries is the
ordered sequence of the intermediate responses of the first `max_redirects`
hops, with length exactly `max_redirects`. -/
theorem redirect_exceed_fails_with_full_history
    (p : AsyncRedirectPolicy) (request : PipelineRequest) (nexts : List RespData)
    (hallow : (p.configure_redirects request.options).allow = true)
    (hmax : 1 ≤ (p.configure_redirects request.options).max_redirects)
    (hredir : ∀ r ∈ nexts.take (p.configure_redirects request.options).max_redirects,
      isRedirect r = true)
    (hlen : (p.configure_redirects request.options).max_redirects ≤ nexts.length) :
    (p.send request nexts).isTooMany = true ∧
    (p.send request nexts).historyData =
      some (nexts.take (p.configure_redirects request.options).max_redirects) ∧
    (nexts.take (p.configure_redirects request.options).max_redirects).length =
      (p.configure_redirects request.options).max_redirects := by
  have htake_len :
      (nexts.take (p.configure_redirects request.options).max_redirects).length =
        (p.configure_redirects request.options).max_redirects := by
    simp [List.length_take, Nat.min_eq_left hlen]
  have hne : nexts.take (p.configure_redirects request.options).max_redirects ≠ [] := by
    intro h0
    rw [h0] at htake_len
    simp at htake_len
    omega
  have hhist0 : (p.configure_redirects request.options).history = [] := rfl
  obtain ⟨h, req', heq, hhist⟩ := sendAux_chain_exceed (p.original_domain_of request)
    (nexts.take (p.configure_redirects request.options).max_redirects)
    (p.configure_redirects request.options) request
    (nexts.drop (p.configure_redirects request.options).max_redirects)
    hallow hredir hne (by rw [hhist0]; simpa using htake_len)
  rw [List.take_append_drop] at heq
  have hsend : p.send request nexts = SendResult.tooManyRedirects h req' := heq
  refine ⟨by rw [hsend]; rfl, ?_, htake_len⟩
  rw [hsend]
  simp only [SendResult.historyData]
  rw [hhist, hhist0]
  simp

/-- Claim C1 counterexample: with `max_redirects` configured to 0, a chain
longer than the maximum (its single response a valid 302 with a location)
fails with the too-many-redirects error, but the history length is 1, not the
configured maximum 0: the response is appended before the limit test, so the
error's history can never be shorter than 1. -/
theorem redirect_exceed_zero_max_counterexample :
    (AsyncRedirectPolicy.configure_redirects {} counterRequestMaxZero.options).max_redirects
        = 0 ∧
    isRedirect resp302SameDomain = true ∧
    (AsyncRedirectPolicy.send {} counterRequestMaxZero [resp302SameDomain]).isTooMany = true ∧
    ((AsyncRedirectPolicy.send {} counterRequestMaxZero [resp302SameDomain]).historyData.map
      List.length) = some 1 := by
  refine ⟨rfl, by decide, by decide, by decide⟩

/-- Claim C1 witness: with `redirect_max = 1` and a single valid redirect,
the call fails and the history is exactly the first response. -/
theorem redirect_exceed_fails_with_full_history_witness :
    (AsyncRedirectPolicy.send {} witnessRequestMaxOne [resp302SameDomain, resp200]).isTooMany
        = true ∧
    (AsyncRedirectPolicy.send {} witnessRequestMaxOne [resp302SameDomain, resp200]).historyData =
      some ([resp302SameDomain, resp200].take
        (AsyncRedirectPolicy.configure_redirects {} witnessRequestMaxOne.options).max_redirects) ∧
    ([resp302SameDomain, resp200].take
        (AsyncRedirectPolicy.configure_redirects {} witnessRequestMaxOne.options).max_redirects).length =
      (AsyncRedirectPolicy.configure_redirects {} witnessRequestMaxOne.options).max_redirects :=
  redirect_exceed_fails_with_full_history {} witnessRequestMaxOne [resp302SameDomain, resp200]
    (by decide) (by decide) (by decide) (by decide)

/-- Claim C2: for every redirect chain of length `k ≤ max_redirects` — hops
1..k-1 (`pre`) are valid redirects and hop k's response `d` is not a
redirect — `AsyncRedirectPolicy.send` delivers the response received at hop
k, and the history at the moment of delivery is exactly the k-1 intermediate
responses: the terminal response is never appended. -/
theorem redirect_chain_delivers_terminal
    (p : AsyncRedirectPolicy) (request : PipelineRequest) (pre : List RespData)
    (d : RespData) (rest : List RespData)
    (hallow : (p.configure_redirects request.options).allow = true)
    (hpre : ∀ r ∈ pre, isRedirect r = true)
    (hd : isRedirect d = false)
    (hlen : pre.length < (p.configure_redirects request.options).max_redirects) :
    (p.send request (pre ++ d :: rest)).deliveredData = some d ∧
    (p.send request (pre ++ d :: rest)).historyData = some pre := by
  obtain ⟨resp, req', st', heq, hdata, hhist, hmax, hflag⟩ :=
    sendAux_chain_deliver (p.original_domain_of request) pre
      (p.configure_redirects request.options) request d rest hallow hpre hd
      (by simpa [AsyncRedirectPolicy.configure_redirects] using hlen)
  have hsend : p.send request (pre ++ d :: rest) = SendResult.delivered resp req' st' := heq
  rw [hsend]
  constructor
  · simp [SendResult.deliveredData, hdata]
  · simp only [SendResult.historyData]
    rw [hhist]
    have : (p.configure_redirects request.options).history = [] := rfl
    rw [this]
    simp

/-- Claim C2 witness: the section 8 scenario — two valid redirects then a
200 — delivers the 200 with exactly the two intermediate responses in the
history. -/
theorem redirect_chain_delivers_terminal_witness :
    (AsyncRedirectPolicy.send {} witnessRequest
        ([resp302SameDomain, resp302CrossDomain] ++ resp200 :: [])).deliveredData =
      some resp200 ∧
    (AsyncRedirectPolicy.send {} witnessRequest
        ([resp302SameDomain, resp302CrossDomain] ++ resp200 :: [])).historyData =
      some [resp302SameDomain, resp302CrossDomain] :=
  redirect_chain_delivers_terminal {} witnessRequest [resp302SameDomain, resp302CrossDomain]
    resp200 [] (by decide) (by decide) (by decide) (by decide)

/-- Claim C3: during a delivered call whose context does not already carry
the flag, the insecure-domain-change option reads `some true` at the end if
and only if some followed hop's target URL has a domain (scheme+host)
different from the domain of the original request URL captured before the
first send; in particular it is never set when every hop stays on the
original domain. -/
theorem redirect_domain_change_flag_iff
    (p : AsyncRedirectPolicy) (request : PipelineRequest) (pre : List RespData)
    (d : RespData) (rest : List RespData)
    (hallow : (p.configure_redirects request.options).allow = true)
    (hflag0 : request.options.insecure_domain_change ≠ some true)
    (hpre : ∀ r ∈ pre, isRedirect r = true)
    (hd : isRedirect d = false)
    (hlen : pre.length < (p.configure_redirects request.options).max_redirects) :
    ((p.send request (pre ++ d :: rest)).finalRequest).options.insecure_domain_change =
        some true ↔
      pre.any (fun r =>
        get_domain (locationOf r) != get_domain request.http_request.url) = true := by
  have horig : p.original_domain_of request = some (get_domain request.http_request.url) := by
    unfold AsyncRedirectPolicy.original_domain_of
    simp [hallow]
  obtain ⟨resp, req', st', heq, hdata, hhist, hmax, hflag⟩ :=
    sendAux_chain_deliver (p.original_domain_of request) pre
      (p.configure_redirects request.options) request d rest hallow hpre hd
      (by simpa [AsyncRedirectPolicy.configure_redirects] using hlen)
  have hsend : p.send request (pre ++ d :: rest) = SendResult.delivered resp req' st' := heq
  rw [hsend]
  simp only [SendResult.finalRequest]
  rw [hflag, horig]
  have hpred : (fun r => domain_changed (some (get_domain request.http_request.url))
      (locationOf r)) =
      (fun r => get_domain (locationOf r) != get_domain request.http_request.url) := by
    funext r
    rfl
  rw [hpred]
  split
  · rename_i hany
    simp [hany]
  · rename_i hany
    simp only [Bool.not_eq_true] at hany
    simp [hany, hflag0]

/-- Claim C3 witness: in the section 8 scenario the second hop leaves the
original domain, so the flag is set at the end of the delivered call. -/
theorem redirect_domain_change_flag_iff_witness :
    ((AsyncRedirectPolicy.send {} witnessRequest
        ([resp302SameDomain, resp302CrossDomain] ++ resp200 :: [])).finalRequest).options.insecure_domain_change =
        some true ↔ [resp302SameDomain, resp302CrossDomain].any (fun r =>
          get_domain (locationOf r) != get_domain witnessRequest.http_request.url) = true :=
  redirect_domain_change_flag_iff {} witnessRequest [resp302SameDomain, resp302CrossDomain]
    resp200 [] (by decide) (by decide) (by decide) (by decide) (by decide)

/-- Claim C4: when the allow option resolves to false,
`AsyncRedirectPolicy.send` returns the very first response unchanged,
whatever its status code; the per-call history stays empty and the original
domain is left unset. -/
theorem redirect_disallowed_returns_first_response
    (p : AsyncRedirectPolicy) (request : PipelineRequest) (d : RespData) (rest : List RespData)
    (hallow : (p.configure_redirects request.options).allow = false) :
    p.send request (d :: rest) =
      .delivered (mkResponse d request.http_request) request
        (p.configure_redirects request.options) ∧
    (p.configure_redirects request.options).history = [] ∧
    p.original_domain_of request = none := by
  refine ⟨?_, rfl, ?_⟩
  · exact sendAux_cons_not_allowed _ _ _ d rest hallow
  · unfold AsyncRedirectPolicy.original_domain_of
    simp [hallow]

/-- The witness request configured with `permit_redirects = false`. -/
def witnessRequestNoRedirects : PipelineRequest :=
  { http_request := witnessHttpRequest, options := { permit_redirects := some false } }

/-- Claim C4 witness: with `permit_redirects = false` a 302 with a valid
location is returned unchanged, with empty history and no original domain. -/
theorem redirect_disallowed_returns_first_response_witness :
    AsyncRedirectPolicy.send {} witnessRequestNoRedirects (resp302SameDomain :: [resp200]) =
      .delivered (mkResponse resp302SameDomain witnessRequestNoRedirects.http_request)
        witnessRequestNoRedirects
        (AsyncRedirectPolicy.configure_redirects {} witnessRequestNoRedirects.options) ∧
    (AsyncRedirectPolicy.configure_redirects {} witnessRequestNoRedirects.options).history
        = [] ∧
    AsyncRedirectPolicy.original_domain_of {} witnessRequestNoRedirects = none :=
  redirect_disallowed_returns_first_response {} witnessRequestNoRedirects
    resp302SameDomain [resp200] (by decide)

/-- Claim C5: a response is treated as a redirect if and only if its status
code is in the conventional 3xx redirect set AND it carries a location
header; a response missing either is delivered to the caller as-is (neither
a failure nor a hop), while a redirect-eligible one is never delivered
as-is at its own hop. -/
theorem redirect_detection_iff_status_and_location
    (settings : RedirectSettings) (origd : Option String) (request : PipelineRequest)
    (d : RespData) (q : HttpRequest) (rest : List RespData)
    (hallow : settings.allow = true) :
    ((get_redirect_location (mkResponse d q)).isSome = true ↔
      d.status_code ∈ REDIRECT_STATUSES ∧ (header_value d.headers "location").isSome = true) ∧
    (isRedirect d = false →
      sendAux settings origd request (d :: rest) =
        .delivered (mkResponse d request.http_request) request settings) ∧
    (isRedirect d = true →
      sendAux settings origd request (d :: rest) ≠
        .delivered (mkResponse d request.http_request) request settings) := by
  refine ⟨?_, fun hd => sendAux_cons_not_redirect settings origd request rest hd,
    fun hd => ?_⟩
  · constructor
    · intro h
      by_cases hs : d.status_code ∈ REDIRECT_STATUSES
      · refine ⟨hs, ?_⟩
        unfold get_redirect_location mkResponse at h
        simpa [hs] using h
      · exfalso
        unfold get_redirect_location mkResponse at h
        simp [hs] at h
    · rintro ⟨hs, hl⟩
      unfold get_redirect_location mkResponse
      simpa [hs] using hl
  · rw [sendAux_cons_redirect settings origd request rest hd hallow]
    by_cases hcond : settings.history.length + 1 < settings.max_redirects
    · rw [if_pos hcond]
      intro heq
      have := sendAux_delivered_history_ge origd rest _ (nextRequest origd request d)
        (mkResponse d request.http_request) request settings heq
      simp only [List.length_append, List.length_cons, List.length_nil] at this
      omega
    · rw [if_neg hcond]
      simp

/-- Claim C5 witness: a 302 without a location header is not
redirect-eligible and is delivered as-is; a 302 with one is eligible. -/
theorem redirect_detection_iff_status_and_location_witness :
    ((get_redirect_location (mkResponse (⟨302, []⟩ : RespData) witnessHttpRequest)).isSome = true ↔
      (302 : Nat) ∈ REDIRECT_STATUSES ∧
        (header_value ([] : List (String × String)) "location").isSome = true) ∧
    (isRedirect ⟨302, []⟩ = false →
      sendAux { allow := true, max_redirects := 30, history := [] } none witnessRequest
          (⟨302, []⟩ :: [resp200]) =
        .delivered (mkResponse ⟨302, []⟩ witnessRequest.http_request) witnessRequest
          { allow := true, max_redirects := 30, history := [] }) ∧
    (isRedirect ⟨302, []⟩ = true →
      sendAux { allow := true, max_redirects := 30, history := [] } none witnessRequest
          (⟨302, []⟩ :: [resp200]) ≠
        .delivered (mkResponse ⟨302, []⟩ witnessRequest.http_request) witnessRequest
          { allow := true, max_redirects := 30, history := [] }) :=
  redirect_detection_iff_status_and_location
    { allow := true, max_redirects := 30, history := [] } none witnessRequest
    ⟨302, []⟩ witnessHttpRequest [resp200] (by decide)

/-- Claim C6: a poller constructed with `finished = true` returns its final
resource from `result()` with zero status-check invocations, whatever the
status-check oracle holds; and `begin_delete_key` constructs its polling
method with `finished` true exactly when the deleted key has no recovery id
(soft-delete disabled), so in that case `result()` yields the `DeletedKey`
after zero status checks. -/
theorem finished_poller_returns_resource_without_checks
    (b : DeletedKeyBundle) (polling_interval : Option Nat) (polls : List PollResponse) :
    ((KeyClient.begin_delete_key b polling_interval).polling_method.finished = true ↔
      b.recovery_id = none) ∧
    (b.recovery_id = none →
      (KeyClient.begin_delete_key b polling_interval).result polls =
        .ok (DeletedKey.from_deleted_key_bundle b) 0) := by
  constructor
  · simp [KeyClient.begin_delete_key, DeletedKey.from_deleted_key_bundle,
      Option.isNone_iff_eq_none]
  · intro h
    simp [KeyClient.begin_delete_key, KeyVaultOperationPoller.result,
      DeleteRecoverPollingMethod.run, DeletedKey.from_deleted_key_bundle, h]

/-- Claim C6 witness: a bundle without a recovery id yields a poller that is
finished at creation and returns the deleted key with zero status checks,
even against an oracle that would keep reporting in-progress. -/
theorem finished_poller_returns_resource_without_checks_witness :
    ((KeyClient.begin_delete_key ⟨none, "key-1"⟩ none).polling_method.finished = true ↔
      (⟨none, "key-1"⟩ : DeletedKeyBundle).recovery_id = none) ∧
    ((⟨none, "key-1"⟩ : DeletedKeyBundle).recovery_id = none →
      (KeyClient.begin_delete_key ⟨none, "key-1"⟩ none).result
          [PollResponse.inProgress, PollResponse.inProgress] =
        .ok (DeletedKey.from_deleted_key_bundle ⟨none, "key-1"⟩) 0) :=
  finished_poller_returns_resource_without_checks ⟨none, "key-1"⟩ none
    [PollResponse.inProgress, PollResponse.inProgress]

/-- Claim C7: when a status-check invocation errors after a prefix of
well-formed still-in-progress responses, polling does not continue (whatever
the oracle holds afterwards) and the error is surfaced verbatim, both for any
unfinished polling method and for the async `delete_secret` operation on a
soft-delete-enabled vault. -/
theorem poll_check_error_surfaces
    {α : Type} (m : DeleteRecoverPollingMethod α) (bundle : DeletedSecretBundle)
    (rid : String) (polling_interval : Option Nat) (pre rest : List PollResponse)
    (message : String)
    (hm : m.finished = false)
    (hbundle : bundle.recovery_id = some rid)
    (hpre : ∀ q ∈ pre, q = PollResponse.inProgress) :
    m.run (pre ++ PollResponse.failure message :: rest) =
      .failed message (pre.length + 1) ∧
    SecretClient.delete_secret bundle polling_interval
        (pre ++ PollResponse.failure message :: rest) =
      .failed message (pre.length + 1) := by
  have hrun : ∀ (β : Type) (mm : DeleteRecoverPollingMethod β), mm.finished = false →
      mm.run (pre ++ PollResponse.failure message :: rest) =
        .failed message (pre.length + 1) := by
    intro β mm hmm
    unfold DeleteRecoverPollingMethod.run
    simp only [hmm, Bool.false_eq_true, if_false]
    simpa using pollUntilDone_failure pre message rest 0 hpre
  have hfin :
      (SecretClient.delete_secret_polling_method bundle polling_interval).finished = false := by
    simp [SecretClient.delete_secret_polling_method, DeletedSecret.from_deleted_secret_bundle,
      hbundle]
  refine ⟨hrun α m hm, ?_⟩
  unfold SecretClient.delete_secret
  rw [hrun _ _ hfin]

/-- Claim C7 witness: one in-progress response then an erroring status check
surfaces the error after exactly two checks, both through a bare polling
method and through `delete_secret`. -/
theorem poll_check_error_surfaces_witness :
    DeleteRecoverPollingMethod.run
        (⟨false, (⟨some "rid", "sec"⟩ : DeletedSecret), 2⟩ : DeleteRecoverPollingMethod DeletedSecret)
        ([PollResponse.inProgress] ++ PollResponse.failure "resource not found" :: []) =
      .failed "resource not found" ([PollResponse.inProgress].length + 1) ∧
    SecretClient.delete_secret ⟨some "rid", "sec"⟩ none
        ([PollResponse.inProgress] ++ PollResponse.failure "resource not found" :: []) =
      .failed "resource not found" ([PollResponse.inProgress].length + 1) :=
  poll_check_error_surfaces
    (⟨false, (⟨some "rid", "sec"⟩ : DeletedSecret), 2⟩ : DeleteRecoverPollingMethod DeletedSecret)
    ⟨some "rid", "sec"⟩ "rid" none [PollResponse.inProgress] [] "resource not found"
    rfl rfl (by decide)

/-- Claim C8: at per-call setup the redirect policy reads its configuration
from the call options; with neither option supplied, a default-constructed
policy yields `allow = true` and `max_redirects = 30`, and supplied options
take precedence for any policy. -/
theorem configure_redirects_defaults
    (options : RequestOptions) (b : Bool) (n : Nat) (p : AsyncRedirectPolicy)
    (hp : options.permit_redirects = none) (hm : options.redirect_max = none) :
    AsyncRedirectPolicy.configure_redirects {} options =
      { allow := true, max_redirects := 30, history := [] } ∧
    p.configure_redirects
        { options with permit_redirects := some b, redirect_max := some n } =
      { allow := b, max_redirects := n, history := [] } := by
  constructor
  · simp [AsyncRedirectPolicy.configure_redirects, hp, hm]
  · simp [AsyncRedirectPolicy.configure_redirects]

/-- Claim C8 witness: empty options give the documented defaults, and
explicitly supplied options override them. -/
theorem configure_redirects_defaults_witness :
    AsyncRedirectPolicy.configure_redirects {} {} =
      { allow := true, max_redirects := 30, history := [] } ∧
    AsyncRedirectPolicy.configure_redirects {}
        { ({} : RequestOptions) with permit_redirects := some false, redirect_max := some 5 } =
      { allow := false, max_redirects := 5, history := [] } :=
  configure_redirects_defaults {} false 5 {} rfl rfl

/-- Claim C9: all four LRO-initiating client operations use the supplied
`_polling_interval` option when given, and 2 seconds when the caller omits
it or passes None. -/
theorem polling_interval_default_two
    (kb : DeletedKeyBundle) (rk : KeyVaultKey) (sb : DeletedSecretBundle)
    (ss : SecretProperties) (polling_interval : Option Nat) :
    (KeyClient.begin_delete_key kb polling_interval).polling_method.interval =
      resolvePollingInterval polling_interval ∧
    (KeyClient.begin_recover_deleted_key rk polling_interval).polling_method.interval =
      resolvePollingInterval polling_interval ∧
    (SecretClient.delete_secret_polling_method sb polling_interval).interval =
      resolvePollingInterval polling_interval ∧
    (SecretClient.recover_deleted_secret_polling_method ss polling_interval).interval =
      resolvePollingInterval polling_interval ∧
    resolvePollingInterval none = 2 ∧
    ∀ v : Nat, resolvePollingInterval (some v) = v :=
  ⟨rfl, rfl, rfl, rfl, rfl, fun _ => rfl⟩

/-- Claim C10: within a single send call, once the context option
`insecure_domain_change` reads `some true` — from any loop state onwards,
and in particular from the call's entry — it is never cleared: it still
reads `some true` in the final request state, whether the call delivers a
response, fails with too many redirects, or the oracle runs out. -/
theorem insecure_domain_change_flag_monotone
    (p : AsyncRedirectPolicy) (settings : RedirectSettings) (origd : Option String)
    (request : PipelineRequest) (nexts : List RespData)
    (hflag : request.options.insecure_domain_change = some true) :
    ((sendAux settings origd request nexts).finalRequest).options.insecure_domain_change =
      some true ∧
    ((p.send request nexts).finalRequest).options.insecure_domain_change = some true :=
  ⟨sendAux_flag_monotone origd nexts settings request hflag,
   sendAux_flag_monotone (p.original_domain_of request) nexts
     (p.configure_redirects request.options) request hflag⟩

/-- The witness request whose context already carries the flag. -/
def witnessRequestFlagged : PipelineRequest :=
  { http_request := witnessHttpRequest, options := { insecure_domain_change := some true } }

/-- Claim C10 witness: a call entered with the flag set still carries it when
the final (same-domain) response is delivered. -/
theorem insecure_domain_change_flag_monotone_witness :
    ((sendAux { allow := true, max_redirects := 30, history := [] } none
        witnessRequestFlagged [resp302SameDomain, resp200]).finalRequest).options.insecure_domain_change =
      some true ∧
    ((AsyncRedirectPolicy.send {} witnessRequestFlagged
        [resp302SameDomain, resp200]).finalRequest).options.insecure_domain_change =
      some true :=
  insecure_domain_change_flag_monotone {} { allow := true, max_redirects := 30, history := [] }
    none witnessRequestFlagged [resp302SameDomain, resp200] rfl
